import Mathlib

/-!
Shallow embedding of `target-riscv/translate.c` (the translation-block
builder of the RISC-V QEMU port) and proofs about it.

Addresses (`target_ulong`) are modelled as `Nat` values below `2 ^ 64`
(the target is 64-bit); arithmetic that the C code performs on
`target_ulong` is taken modulo `2 ^ 64` where it can wrap.  The emitted
TCG operation stream is modelled as a `List TCGOp`; external collaborators
(breakpoint query, code fetch, op-buffer fullness, the global `singlestep`
flag) are oracle fields of `TransEnv`.
-/

/-- `TARGET_PAGE_SIZE` for this target: `TARGET_PAGE_BITS = 12`. -/
def TARGET_PAGE_SIZE : Nat := 4096

/-- `TARGET_PAGE_MASK` viewed as an unsigned 64-bit value:
`~(TARGET_PAGE_SIZE - 1)` truncated to 64 bits. -/
def TARGET_PAGE_MASK64 : Nat := 2 ^ 64 - TARGET_PAGE_SIZE

/-- `CF_COUNT_MASK` from the QEMU execution headers. -/
def CF_COUNT_MASK : Nat := 0x7fff

/-- `CF_LAST_IO` flag bit from the QEMU execution headers. -/
def CF_LAST_IO : Nat := 0x8000

/-- `TCG_MAX_INSNS` from the TCG headers. -/
def TCG_MAX_INSNS : Nat := 512

/-- One emitted TCG/IR operation, as produced by the translation unit.
`exit_tb_linked n` stands for `tcg_gen_exit_tb((uintptr_t)tb + n)` (a
chained exit) and `exit_tb_dispatch` for `tcg_gen_exit_tb(0)` (return to
the dispatcher). -/
inductive TCGOp where
  | insn_start (pc : Nat)
  | movi_PC (v : Nat)
  | raise_debug
  | io_start
  | io_end
  | goto_tb (n : Nat)
  | exit_tb_linked (n : Nat)
  | exit_tb_dispatch
  deriving DecidableEq

/-- `ctx.bstate`: `BS_NONE`, `BS_STOP`, `BS_BRANCH`. -/
inductive BState where
  | bsNone
  | bsStop
  | bsBranch
  deriving DecidableEq

/-- Whether an op is part of a chained ("goto_tb") exit form. -/
def TCGOp.isChained : TCGOp → Bool
  | .goto_tb _ => true
  | .exit_tb_linked _ => true
  | _ => false

/-- The external inputs of one `gen_intermediate_code` invocation.
`bkpt` is `cpu_breakpoint_test(cs, ·, BP_ANY)`; `ss_enabled` is
`cs->singlestep_enabled`; `singlestep` is the global forced-single-step
flag; `bufFull` is `tcg_op_buf_full()` as a function of the number of ops
emitted so far; `mem` is `cpu_ldl_code`. -/
structure TransEnv where
  pc_start : Nat
  cflags : Nat
  bkpt : Nat → Bool
  ss_enabled : Bool
  singlestep : Bool
  bufFull : Nat → Bool
  mem : Nat → Nat

/-- `use_goto_tb(ctx, dest)`: chaining is allowed only when single-step is
off and the destination shares the guest page of `ctx->tb->pc`
(the `#ifndef CONFIG_USER_ONLY` branch of the source). -/
def use_goto_tb (ss : Bool) (tb_pc dest : Nat) : Bool :=
  if ss then false
  else (tb_pc &&& TARGET_PAGE_MASK64) == (dest &&& TARGET_PAGE_MASK64)

/-- `gen_goto_tb(ctx, n, dest)`. -/
def gen_goto_tb (ss : Bool) (tb_pc : Nat) (n dest : Nat) : List TCGOp :=
  if use_goto_tb ss tb_pc dest then
    [TCGOp.goto_tb n, TCGOp.movi_PC dest, TCGOp.exit_tb_linked n]
  else
    [TCGOp.movi_PC dest] ++ (if ss then [TCGOp.raise_debug] else [])
      ++ [TCGOp.exit_tb_dispatch]

/-- `decode_opc` in this source is an empty stub: it consumes the fetched
opcode and leaves `ctx.bstate` unchanged. -/
def decode_opc (opcode : Nat) (bstate : BState) : BState := bstate

/-- Why the decode loop stopped.  The first five non-`fuelOut` causes are
the loop-exit paths of the source in order: the breakpoint `goto`, then
the five `break` checks.  `fuelOut` is a model artifact of the explicit
recursion bound and is unreachable from `gen_intermediate_code`
(see `transLoop_no_fuelOut`). -/
inductive StopCause where
  | breakpoint
  | ssCpu
  | pageCross
  | bufferFull
  | insnBudget
  | ssGlobal
  | fuelOut
  deriving DecidableEq

/-- State of the translation when the decode loop stops: emitted ops, the
addresses at which an instruction word was fetched and decoded, `ctx.pc`,
`num_insns`, `ctx.bstate`, and the stop cause. -/
structure LoopResult where
  ops : List TCGOp
  decoded : List Nat
  pc : Nat
  numInsns : Nat
  bstate : BState
  cause : StopCause
  deriving DecidableEq

/-- The `while (ctx.bstate == BS_NONE)` loop of `gen_intermediate_code`.
Since `decode_opc` is an empty stub, `ctx.bstate` is `BS_NONE` whenever
the while condition is re-evaluated, so the loop is exactly this
recursion; the recursion bound `fuel` is set to `max_insns` by the
caller, which suffices because `num_insns` grows by one per iteration
and the loop breaks once `num_insns >= max_insns`. -/
def transLoop (E : TransEnv) (maxI nextPage : Nat) :
    Nat → Nat → Nat → List TCGOp → List Nat → LoopResult
  | 0, pc, numInsns, ops, decoded =>
      { ops := ops, decoded := decoded, pc := pc, numInsns := numInsns,
        bstate := BState.bsNone, cause := StopCause.fuelOut }
  | fuel + 1, pc, numInsns, ops, decoded =>
      let ops1 := ops ++ [TCGOp.insn_start pc]
      let n1 := numInsns + 1
      if E.bkpt pc then
        { ops := ops1 ++ [TCGOp.movi_PC pc, TCGOp.raise_debug],
          decoded := decoded, pc := (pc + 4) % 2 ^ 64, numInsns := n1,
          bstate := BState.bsBranch, cause := StopCause.breakpoint }
      else
        let ops2 := if n1 == maxI && (E.cflags &&& CF_LAST_IO) != 0 then
            ops1 ++ [TCGOp.io_start] else ops1
        let bs := decode_opc (E.mem pc) BState.bsNone
        let dec2 := decoded ++ [pc]
        let pc2 := (pc + 4) % 2 ^ 64
        if E.ss_enabled then
          { ops := ops2, decoded := dec2, pc := pc2, numInsns := n1,
            bstate := bs, cause := StopCause.ssCpu }
        else if nextPage ≤ pc2 then
          { ops := ops2, decoded := dec2, pc := pc2, numInsns := n1,
            bstate := bs, cause := StopCause.pageCross }
        else if E.bufFull ops2.length then
          { ops := ops2, decoded := dec2, pc := pc2, numInsns := n1,
            bstate := bs, cause := StopCause.bufferFull }
        else if maxI ≤ n1 then
          { ops := ops2, decoded := dec2, pc := pc2, numInsns := n1,
            bstate := bs, cause := StopCause.insnBudget }
        else if E.singlestep then
          { ops := ops2, decoded := dec2, pc := pc2, numInsns := n1,
            bstate := bs, cause := StopCause.ssGlobal }
        else
          transLoop E maxI nextPage fuel pc2 n1 ops2 dec2

/-- The `max_insns` computation at the head of `gen_intermediate_code`. -/
def max_insns_of (cflags : Nat) : Nat :=
  let m := cflags &&& CF_COUNT_MASK
  let m := if m == 0 then CF_COUNT_MASK else m
  if TCG_MAX_INSNS < m then TCG_MAX_INSNS else m

/-- `next_page_start = (pc_start & TARGET_PAGE_MASK) + TARGET_PAGE_SIZE`
in 64-bit arithmetic. -/
def next_page_start_of (pc_start : Nat) : Nat :=
  ((pc_start &&& TARGET_PAGE_MASK64) + TARGET_PAGE_SIZE) % 2 ^ 64

/-- The block-exit logic that follows the decode loop (reached unless the
breakpoint path took the `goto done_generating`): the
`cs->singlestep_enabled` branch, else the `switch (ctx.bstate)`. -/
def exit_logic (E : TransEnv) (bstate : BState) (pc : Nat) : List TCGOp :=
  if E.ss_enabled && !(bstate == BState.bsBranch) then
    (if bstate == BState.bsNone then [TCGOp.movi_PC pc] else [])
      ++ [TCGOp.raise_debug]
  else
    match bstate with
    | BState.bsStop => gen_goto_tb E.ss_enabled E.pc_start 0 pc
    | BState.bsNone => [TCGOp.movi_PC pc, TCGOp.exit_tb_dispatch]
    | BState.bsBranch => []

/-- The finalized translation block: ops, decoded addresses, final
`ctx.pc`, `tb->size`, `tb->icount`, final `ctx.bstate`, and the loop's
stop cause. -/
structure TBResult where
  ops : List TCGOp
  decoded : List Nat
  pc : Nat
  size : Nat
  icount : Nat
  bstate : BState
  cause : StopCause
  deriving DecidableEq

/-- `gen_intermediate_code(env, tb)`.  On the breakpoint path the source
jumps straight to `done_generating`, skipping `gen_io_end` and the exit
logic; `tb->size = ctx.pc - pc_start` is the 64-bit wrapping difference
and `tb->icount = num_insns`. -/
def gen_intermediate_code (E : TransEnv) : TBResult :=
  let maxI := max_insns_of E.cflags
  let nextPage := next_page_start_of E.pc_start
  let r := transLoop E maxI nextPage maxI E.pc_start 0 [] []
  let ops :=
    if r.cause = StopCause.breakpoint then r.ops
    else
      (if (E.cflags &&& CF_LAST_IO) != 0 then r.ops ++ [TCGOp.io_end]
        else r.ops)
        ++ exit_logic E r.bstate r.pc
  { ops := ops, decoded := r.decoded, pc := r.pc,
    size := (r.pc + (2 ^ 64 - E.pc_start % 2 ^ 64)) % 2 ^ 64,
    icount := r.numInsns, bstate := r.bstate, cause := r.cause }

/-- The address written to `cpu_PC` immediately before the first
`raise_exception_debug` op: per the exception-raising primitives, the
address a synthesized debug exception targets. -/
def debugTrapTarget : List TCGOp → Option Nat
  | TCGOp.movi_PC v :: TCGOp.raise_debug :: _ => some v
  | _ :: rest => debugTrapTarget rest
  | [] => none

/- ## CPU model registry (`cpu_riscv_find_by_name`, `cpu_riscv_init`) -/

/-- `struct riscv_def_t`. -/
structure riscv_def_t where
  name : String
  init_misa_reg : Nat
  deriving DecidableEq

/-- `MCPUID_RV64I = 2L << (TARGET_LONG_BITS - 2)` with
`TARGET_LONG_BITS = 64`. -/
def MCPUID_RV64I : Nat := 2 <<< 62

/-- `MCPUID_SUPER = 1L << ('S' - 'A')`. -/
def MCPUID_SUPER : Nat := 1 <<< 18

/-- `MCPUID_USER = 1L << ('U' - 'A')`. -/
def MCPUID_USER : Nat := 1 <<< 20

/-- `MCPUID_I = 1L << ('I' - 'A')`. -/
def MCPUID_I : Nat := 1 <<< 8

/-- `MCPUID_M = 1L << ('M' - 'A')`. -/
def MCPUID_M : Nat := 1 <<< 12

/-- `MCPUID_A = 1L << ('A' - 'A')`. -/
def MCPUID_A : Nat := 1 <<< 0

/-- `MCPUID_F = 1L << ('F' - 'A')`. -/
def MCPUID_F : Nat := 1 <<< 5

/-- `MCPUID_D = 1L << ('D' - 'A')`. -/
def MCPUID_D : Nat := 1 <<< 3

/-- The static `riscv_defs` table (the `TARGET_RISCV64` / RV64G entry). -/
def riscv_defs : List riscv_def_t :=
  [{ name := "riscv",
     init_misa_reg := MCPUID_RV64I ||| MCPUID_SUPER ||| MCPUID_USER
       ||| MCPUID_I ||| MCPUID_M ||| MCPUID_A ||| MCPUID_F ||| MCPUID_D }]

/-- ASCII `tolower`, as used by C `strcasecmp` in the C locale. -/
def tolower_ascii (c : Char) : Char :=
  if 'A' ≤ c && c ≤ 'Z' then Char.ofNat (c.toNat + 32) else c

/-- `strcasecmp(a, b) == 0`: case-insensitive exact string equality. -/
def strcasecmp_eq (a b : String) : Bool :=
  a.data.map tolower_ascii == b.data.map tolower_ascii

/-- `cpu_riscv_find_by_name`: linear scan of `riscv_defs` under
`strcasecmp`. -/
def cpu_riscv_find_by_name (name : String) : Option riscv_def_t :=
  riscv_defs.find? (fun d => strcasecmp_eq name d.name)

/-- `CSR_MISA` index.  Modelled from the spec: the CSR numbering header
(`cpu.h`) is not part of the given source; the spec only requires that
instantiation "sets the initial feature/ID register from the model's
`initialFeatureBits`". -/
def CSR_MISA : Nat := 0xf10

/-- `PRV_M`, the most-privileged level.  Modelled from the spec: the
privilege constants of `cpu.h` are not part of the given source; the spec
requires "the initial privilege level to the most-privileged level". -/
def PRV_M : Nat := 3

/-- The fields of the fresh CPU state that `cpu_riscv_init` establishes:
all CSRs zeroed, `MISA` set from the model, machine privilege, default
NaN mode on. -/
structure CPUInitResult where
  csr : Nat → Nat
  priv : Nat
  cpu_model : riscv_def_t
  default_nan_mode : Bool

/-- `cpu_riscv_init(cpu_model)`: `NULL` (here `none`) when the model name
is unknown, otherwise a freshly initialized CPU. -/
def cpu_riscv_init (cpu_model : String) : Option CPUInitResult :=
  match cpu_riscv_find_by_name cpu_model with
  | none => none
  | some def0 =>
      some { csr := fun i => if i == CSR_MISA then def0.init_misa_reg else 0,
             priv := PRV_M,
             cpu_model := def0,
             default_nan_mode := true }

/- ## CPU state (`CPURISCVState`) -/

/-- The fields of `CPURISCVState` used by this source. -/
structure CPURISCVState where
  gpr : Fin 32 → Nat
  fpr : Fin 32 → Nat
  PC : Nat
  csr : Nat → Nat
  priv : Nat
  load_res : Nat

/-- `restore_state_to_opc(env, tb, data)`: `env->PC = data[0]`. -/
def restore_state_to_opc (env : CPURISCVState) (data : Nat → Nat) :
    CPURISCVState :=
  { env with PC := data 0 }

/-- Modelled from the spec: the register read helper (`gen_get_gpr`) is
not part of the given source (only `riscv_tcg_init`'s refusal to allocate
a TCG global for `cpu_gpr[0]` is); per the spec, reads of register 0
always observe zero. -/
def readRegister (s : CPURISCVState) (i : Fin 32) : Nat :=
  if i = 0 then 0 else s.gpr i

/-- Modelled from the spec: the register write helper (`gen_set_gpr`) is
not part of the given source; per the spec, `writeRegister` is a no-op
when the index is 0. -/
def writeRegister (s : CPURISCVState) (i : Fin 32) (v : Nat) :
    CPURISCVState :=
  if i = 0 then s
  else { s with gpr := fun j => if j = i then v else s.gpr j }

/-- A sequence of register writes, as produced by a stream of emitted IR
operations. -/
def applyWrites (s : CPURISCVState) (ws : List (Fin 32 × Nat)) :
    CPURISCVState :=
  ws.foldl (fun t w => writeRegister t w.1 w.2) s

/- ## Helper lemmas -/

/-- Masking with `TARGET_PAGE_MASK64` clears the low 12 bits: for 64-bit
values it is truncating division by the page size, re-scaled. -/
lemma land_high_mask (a : Nat) (h : a < 2 ^ 64) :
    a &&& TARGET_PAGE_MASK64 = 2 ^ 12 * (a / 2 ^ 12) := by
  have hM : TARGET_PAGE_MASK64 = (2 ^ 52 - 1) <<< 12 := by
    rw [Nat.shiftLeft_eq]
    norm_num [TARGET_PAGE_MASK64, TARGET_PAGE_SIZE]
  have hR : 2 ^ 12 * (a / 2 ^ 12) = (a >>> 12) <<< 12 := by
    rw [Nat.shiftLeft_eq, Nat.shiftRight_eq_div_pow, Nat.mul_comm]
  rw [hM, hR]
  apply Nat.eq_of_testBit_eq
  intro i
  rw [Nat.testBit_land, Nat.testBit_shiftLeft, Nat.testBit_shiftLeft,
    Nat.testBit_shiftRight, Nat.testBit_two_pow_sub_one]
  by_cases h12 : 12 ≤ i
  · by_cases h64 : i < 64
    · have h52 : i - 12 < 52 := by omega
      have hi : 12 + (i - 12) = i := by omega
      simp [h12, h52, hi]
    · have hpow : (2 : Nat) ^ 64 ≤ 2 ^ i :=
        Nat.pow_le_pow_right (by norm_num) (by omega)
      have hbit : a.testBit i = false :=
        Nat.testBit_lt_two_pow (lt_of_lt_of_le h hpow)
      have hi : 12 + (i - 12) = i := by omega
      simp [hi, hbit]
  · simp [h12]

/-- Two 64-bit addresses agree under `TARGET_PAGE_MASK64` iff they lie on
the same guest page (same page number). -/
lemma samePage_iff (a b : Nat) (ha : a < 2 ^ 64) (hb : b < 2 ^ 64) :
    (a &&& TARGET_PAGE_MASK64 = b &&& TARGET_PAGE_MASK64) ↔
      a / TARGET_PAGE_SIZE = b / TARGET_PAGE_SIZE := by
  rw [land_high_mask a ha, land_high_mask b hb]
  have hsz : TARGET_PAGE_SIZE = 2 ^ 12 := by norm_num [TARGET_PAGE_SIZE]
  rw [hsz]
  constructor
  · intro h
    exact Nat.eq_of_mul_eq_mul_left (by norm_num) h
  · intro h
    rw [h]

/- ## C2: chaining eligibility of the exit logic -/

/-- C2: for every block-exit destination, `gen_goto_tb` emits the chained
(`goto_tb`) form iff single-stepping is disabled and the destination lies
on the same guest page as the block's start address; otherwise it emits a
PC write, a debug-trap raise when single-stepping is enabled, and an
unconditional return to the dispatcher. -/
theorem gen_goto_tb_chain_iff (ss : Bool) (tb_pc dest n : Nat)
    (ha : tb_pc < 2 ^ 64) (hb : dest < 2 ^ 64) :
    (gen_goto_tb ss tb_pc n dest =
        [TCGOp.goto_tb n, TCGOp.movi_PC dest, TCGOp.exit_tb_linked n] ↔
      ss = false ∧ tb_pc / TARGET_PAGE_SIZE = dest / TARGET_PAGE_SIZE) ∧
    (¬ (ss = false ∧ tb_pc / TARGET_PAGE_SIZE = dest / TARGET_PAGE_SIZE) →
      gen_goto_tb ss tb_pc n dest =
        [TCGOp.movi_PC dest] ++ (if ss then [TCGOp.raise_debug] else [])
          ++ [TCGOp.exit_tb_dispatch]) := by
  have hpage := samePage_iff tb_pc dest ha hb
  cases ss with
  | false =>
      by_cases hsame : tb_pc / TARGET_PAGE_SIZE = dest / TARGET_PAGE_SIZE
      · have : (tb_pc &&& TARGET_PAGE_MASK64) = dest &&& TARGET_PAGE_MASK64 :=
          hpage.mpr hsame
        simp [gen_goto_tb, use_goto_tb, this, hsame]
      · have : ¬ (tb_pc &&& TARGET_PAGE_MASK64) = dest &&& TARGET_PAGE_MASK64 :=
          fun hc => hsame (hpage.mp hc)
        simp [gen_goto_tb, use_goto_tb, this, hsame]
  | true =>
      simp [gen_goto_tb, use_goto_tb]

/-- Witness for `gen_goto_tb_chain_iff` at singlestep off, `tb_pc = 4096`,
`dest = 4200` (same page), `n = 0`. -/
theorem gen_goto_tb_chain_iff_witness :
    (4096 : Nat) < 2 ^ 64 ∧ (4200 : Nat) < 2 ^ 64 ∧
    ((gen_goto_tb false 4096 0 4200 =
        [TCGOp.goto_tb 0, TCGOp.movi_PC 4200, TCGOp.exit_tb_linked 0] ↔
      false = false ∧ 4096 / TARGET_PAGE_SIZE = 4200 / TARGET_PAGE_SIZE) ∧
    (¬ (false = false ∧ 4096 / TARGET_PAGE_SIZE = 4200 / TARGET_PAGE_SIZE) →
      gen_goto_tb false 4096 0 4200 =
        [TCGOp.movi_PC 4200] ++ (if false then [TCGOp.raise_debug] else [])
          ++ [TCGOp.exit_tb_dispatch])) :=
  ⟨by norm_num, by norm_num,
    gen_goto_tb_chain_iff false 4096 4200 0 (by norm_num) (by norm_num)⟩

/- ## C8: model lookup -/

/-- C8: model lookup is case-insensitive exact matching: `"RISCV"` and
`"riscv"` resolve to the same (unique) table entry, `"bogus"` matches no
entry, and CPU instantiation fails on it. -/
theorem findModel_case_insensitive :
    cpu_riscv_find_by_name "RISCV" = riscv_defs.head? ∧
    cpu_riscv_find_by_name "riscv" = riscv_defs.head? ∧
    (riscv_defs.head?).isSome = true ∧
    cpu_riscv_find_by_name "bogus" = none ∧
    cpu_riscv_init "bogus" = none := by
  refine ⟨by decide, by decide, by decide, by decide, ?_⟩
  have h : cpu_riscv_find_by_name "bogus" = none := by decide
  rw [cpu_riscv_init, h]

/- ## C9: general-purpose register 0 is hard-wired to zero -/

/-- C9: writing register 0 with any value through any sequence of emitted
register-write operations is a no-op, and a subsequent read of register 0
always yields zero. -/
theorem reg0_hardwired :
    (∀ (s : CPURISCVState) (v : Nat),
        readRegister (writeRegister s 0 v) 0 = 0 ∧ writeRegister s 0 v = s) ∧
    (∀ (s : CPURISCVState) (ws : List (Fin 32 × Nat)),
        readRegister (applyWrites s ws) 0 = 0) := by
  constructor
  · intro s v
    exact ⟨by simp [readRegister], by simp [writeRegister]⟩
  · intro s ws
    simp [readRegister]

/- ## C10: frame effect of restore_state_to_opc -/

/-- C10: `restore_state_to_opc` writes only the program counter
(`env->PC = data[0]`); every other field of the CPU state is unchanged. -/
theorem restore_state_to_opc_frame (env : CPURISCVState) (data : Nat → Nat) :
    (restore_state_to_opc env data).PC = data 0 ∧
    (restore_state_to_opc env data).gpr = env.gpr ∧
    (restore_state_to_opc env data).fpr = env.fpr ∧
    (restore_state_to_opc env data).csr = env.csr ∧
    (restore_state_to_opc env data).priv = env.priv ∧
    (restore_state_to_opc env data).load_res = env.load_res :=
  ⟨rfl, rfl, rfl, rfl, rfl, rfl⟩

/- ## Loop invariants -/

/-- `max_insns` is always at least 1. -/
lemma max_insns_of_pos (c : Nat) : 1 ≤ max_insns_of c := by
  unfold max_insns_of
  simp only [beq_iff_eq, TCG_MAX_INSNS, CF_COUNT_MASK]
  split_ifs <;> omega

/-- `max_insns` is capped at `TCG_MAX_INSNS`. -/
lemma max_insns_of_le (c : Nat) : max_insns_of c ≤ 512 := by
  unfold max_insns_of
  simp only [beq_iff_eq, TCG_MAX_INSNS, CF_COUNT_MASK]
  split_ifs <;> omega

/-- In the absence of 64-bit wraparound, `ctx.pc` and `num_insns` advance
in lockstep: the loop result satisfies
`r.pc - pc = 4 * (r.numInsns - numInsns)`, with `numInsns` growing by at
most `fuel`. -/
lemma transLoop_pc_numInsns (E : TransEnv) (maxI nextPage : Nat) :
    ∀ (fuel pc numInsns : Nat) (ops : List TCGOp) (decoded : List Nat),
      pc + 4 * fuel < 2 ^ 64 →
      (transLoop E maxI nextPage fuel pc numInsns ops decoded).pc
            + 4 * numInsns
          = pc + 4 * (transLoop E maxI nextPage fuel pc numInsns
              ops decoded).numInsns
        ∧ numInsns ≤ (transLoop E maxI nextPage fuel pc numInsns
            ops decoded).numInsns
        ∧ (transLoop E maxI nextPage fuel pc numInsns ops decoded).numInsns
            ≤ numInsns + fuel := by
  intro fuel
  induction fuel with
  | zero =>
      intro pc numInsns ops decoded _
      simp [transLoop]
  | succ f ih =>
      intro pc numInsns ops decoded hb
      have hpc4 : (pc + 4) % 2 ^ 64 = pc + 4 := Nat.mod_eq_of_lt (by omega)
      simp only [transLoop, hpc4]
      generalize (if numInsns + 1 == maxI && (E.cflags &&& CF_LAST_IO) != 0
          then ops ++ [TCGOp.insn_start pc] ++ [TCGOp.io_start]
          else ops ++ [TCGOp.insn_start pc]) = o2
      split_ifs with h1 h2 h3 h4 h5 h6 <;>
        first
        | omega
        | (dsimp only; omega)
        | (have hrec := ih (pc + 4) (numInsns + 1) o2 (decoded ++ [pc])
              (by omega)
           omega)

/-- The loop never exceeds the instruction budget, and it only decodes at
addresses strictly below `next_page_start`. -/
lemma transLoop_bounds (E : TransEnv) (maxI nextPage : Nat) :
    ∀ (fuel pc numInsns : Nat) (ops : List TCGOp) (decoded : List Nat),
      numInsns < maxI → pc < nextPage →
      (∀ a ∈ decoded, a < nextPage) →
      (transLoop E maxI nextPage fuel pc numInsns ops decoded).numInsns ≤ maxI
        ∧ ∀ a ∈ (transLoop E maxI nextPage fuel pc numInsns ops
            decoded).decoded, a < nextPage := by
  intro fuel
  induction fuel with
  | zero =>
      intro pc numInsns ops decoded h1 h2 h3
      simp only [transLoop]
      exact ⟨Nat.le_of_lt h1, h3⟩
  | succ f ih =>
      intro pc numInsns ops decoded hn hp hd
      have hd2 : ∀ a ∈ decoded ++ [pc], a < nextPage := by
        intro a ha
        rcases List.mem_append.mp ha with h | h
        · exact hd a h
        · rcases List.mem_singleton.mp h with rfl
          exact hp
      simp only [transLoop]
      generalize (if numInsns + 1 == maxI && (E.cflags &&& CF_LAST_IO) != 0
          then ops ++ [TCGOp.insn_start pc] ++ [TCGOp.io_start]
          else ops ++ [TCGOp.insn_start pc]) = o2
      split_ifs with h1 h2 h3 h4 h5 h6 <;>
        first
        | exact ⟨hn, hd⟩
        | exact ⟨hn, hd2⟩
        | (have h3lt : (pc + 4) % 2 ^ 64 < nextPage := by omega
           exact ih ((pc + 4) % 2 ^ 64) (numInsns + 1) o2 (decoded ++ [pc])
             (by omega) h3lt hd2)

/-- Called with enough fuel (as `gen_intermediate_code` does, with
`fuel = max_insns`), the loop never runs out of fuel: it always stops at
one of the source's own exit paths. -/
lemma transLoop_no_fuelOut (E : TransEnv) (maxI nextPage : Nat) :
    ∀ (fuel pc numInsns : Nat) (ops : List TCGOp) (decoded : List Nat),
      maxI ≤ numInsns + fuel → numInsns < maxI →
      (transLoop E maxI nextPage fuel pc numInsns ops decoded).cause
        ≠ StopCause.fuelOut := by
  intro fuel
  induction fuel with
  | zero =>
      intro pc numInsns ops decoded h1 h2
      omega
  | succ f ih =>
      intro pc numInsns ops decoded h1 h2
      simp only [transLoop]
      generalize (if numInsns + 1 == maxI && (E.cflags &&& CF_LAST_IO) != 0
          then ops ++ [TCGOp.insn_start pc] ++ [TCGOp.io_start]
          else ops ++ [TCGOp.insn_start pc]) = o2
      split_ifs with h3 h4 h5 h6 h7 h8 <;>
        first
        | (simp; done)
        | exact ih _ _ _ _ (by omega) (by omega)

/-- The conditions certified by each loop stop cause: a cause can fire
only when every earlier-checked predicate of the source's `break` chain
is false at the stop point, and any stop other than the breakpoint path
leaves `ctx.bstate` at `BS_NONE`. -/
def StopOrderSpec (E : TransEnv) (maxI nextPage : Nat) (r : LoopResult) :
    Prop :=
  (r.cause = StopCause.ssCpu → E.ss_enabled = true) ∧
  (r.cause = StopCause.pageCross →
    E.ss_enabled = false ∧ nextPage ≤ r.pc) ∧
  (r.cause = StopCause.bufferFull →
    E.ss_enabled = false ∧ r.pc < nextPage ∧
      E.bufFull r.ops.length = true) ∧
  (r.cause = StopCause.insnBudget →
    E.ss_enabled = false ∧ r.pc < nextPage ∧
      E.bufFull r.ops.length = false ∧ maxI ≤ r.numInsns) ∧
  (r.cause = StopCause.ssGlobal →
    E.ss_enabled = false ∧ r.pc < nextPage ∧
      E.bufFull r.ops.length = false ∧ r.numInsns < maxI ∧
      E.singlestep = true) ∧
  (r.cause ≠ StopCause.breakpoint → r.bstate = BState.bsNone)

/-- Every loop result satisfies `StopOrderSpec`. -/
lemma transLoop_stop_order_aux (E : TransEnv) (maxI nextPage : Nat) :
    ∀ (fuel pc numInsns : Nat) (ops : List TCGOp) (decoded : List Nat),
      StopOrderSpec E maxI nextPage
        (transLoop E maxI nextPage fuel pc numInsns ops decoded) := by
  intro fuel
  induction fuel with
  | zero =>
      intro pc numInsns ops decoded
      simp [transLoop, StopOrderSpec]
  | succ f ih =>
      intro pc numInsns ops decoded
      simp only [transLoop]
      generalize (if numInsns + 1 == maxI && (E.cflags &&& CF_LAST_IO) != 0
          then ops ++ [TCGOp.insn_start pc] ++ [TCGOp.io_start]
          else ops ++ [TCGOp.insn_start pc]) = o2
      split_ifs with h1 h2 h3 h4 h5 h6 <;>
        first
        | exact ih _ _ o2 (decoded ++ [pc])
        | (constructor <;> simp_all [StopOrderSpec, decode_opc])

/-- `next_page_start` lies strictly beyond `pc_start` and at most one
page further, provided `pc_start` is not within a page of the top of the
64-bit address space. -/
lemma next_page_start_facts (ps : Nat) (h : ps < 2 ^ 63) :
    ps < next_page_start_of ps ∧
      next_page_start_of ps ≤ ps + TARGET_PAGE_SIZE := by
  have h64 : ps < 2 ^ 64 := lt_trans h (by norm_num)
  have hmask := land_high_mask ps h64
  have hdm := Nat.div_add_mod ps (2 ^ 12)
  unfold next_page_start_of
  rw [hmask]
  have e12 : (2 : Nat) ^ 12 = 4096 := by norm_num
  have e63 : (2 : Nat) ^ 63 = 9223372036854775808 := by norm_num
  have e64 : (2 : Nat) ^ 64 = 18446744073709551616 := by norm_num
  rw [e12] at hdm ⊢
  rw [e63] at h
  have hlt : 4096 * (ps / 4096) + TARGET_PAGE_SIZE < 2 ^ 64 := by
    rw [e64]; simp only [TARGET_PAGE_SIZE]; omega
  rw [Nat.mod_eq_of_lt hlt]
  simp only [TARGET_PAGE_SIZE]
  omega

/- ## C4: budget and page-boundary invariants of every build -/

/-- C4: for every build, regardless of breakpoints or termination cause,
`tb->icount` never exceeds `max_insns`, and no instruction is fetched or
decoded at an address at or beyond `next_page_start`. -/
theorem build_respects_bounds (E : TransEnv) (hwf : E.pc_start < 2 ^ 63) :
    (gen_intermediate_code E).icount ≤ max_insns_of E.cflags ∧
    ∀ a ∈ (gen_intermediate_code E).decoded,
      a < next_page_start_of E.pc_start := by
  have hpos := max_insns_of_pos E.cflags
  have hfacts := next_page_start_facts E.pc_start hwf
  have hb := transLoop_bounds E (max_insns_of E.cflags)
    (next_page_start_of E.pc_start) (max_insns_of E.cflags) E.pc_start 0
    [] [] (by omega) hfacts.1 (by simp)
  simp only [gen_intermediate_code]
  exact ⟨hb.1, hb.2⟩

/-- A concrete well-formed environment: block at `0x1000`, an explicit
one-instruction budget (`cflags = 1`), no breakpoints, no single-step. -/
def envPlain : TransEnv :=
  { pc_start := 4096, cflags := 1, bkpt := fun _ => false,
    ss_enabled := false, singlestep := false,
    bufFull := fun _ => false, mem := fun _ => 0 }

/-- Witness for `build_respects_bounds` at `envPlain`. -/
theorem build_respects_bounds_witness :
    envPlain.pc_start < 2 ^ 63 ∧
    ((gen_intermediate_code envPlain).icount ≤ max_insns_of envPlain.cflags ∧
      ∀ a ∈ (gen_intermediate_code envPlain).decoded,
        a < next_page_start_of envPlain.pc_start) :=
  ⟨by decide, build_respects_bounds envPlain (by decide)⟩

/- ## C3: size/icount/pc decomposition of a clean build -/

/-- C3: for every build over a stream with no breakpoint (and, this
decoder interface being trap-free, no trap), the produced block satisfies
`tb->size = 4 * tb->icount` and the final `ctx.pc` is
`pc_start + tb->size`. -/
theorem build_size_decomposition (E : TransEnv)
    (hnb : ∀ a, E.bkpt a = false) (hwf : E.pc_start < 2 ^ 63) :
    (gen_intermediate_code E).size = 4 * (gen_intermediate_code E).icount ∧
    (gen_intermediate_code E).pc
      = E.pc_start + (gen_intermediate_code E).size := by
  have e63 : (2 : Nat) ^ 63 = 9223372036854775808 := by norm_num
  have e64 : (2 : Nat) ^ 64 = 18446744073709551616 := by norm_num
  have hle := max_insns_of_le E.cflags
  have harith : E.pc_start + 4 * max_insns_of E.cflags < 2 ^ 64 := by
    rw [e64]; rw [e63] at hwf; omega
  have h1 := transLoop_pc_numInsns E (max_insns_of E.cflags)
    (next_page_start_of E.pc_start) (max_insns_of E.cflags) E.pc_start 0 [] []
    harith
  simp only [gen_intermediate_code]
  rw [e64]
  rw [e63] at hwf
  omega

/-- Witness for `build_size_decomposition` at `envPlain`. -/
theorem build_size_decomposition_witness :
    (∀ a, envPlain.bkpt a = false) ∧ envPlain.pc_start < 2 ^ 63 ∧
    ((gen_intermediate_code envPlain).size
        = 4 * (gen_intermediate_code envPlain).icount ∧
      (gen_intermediate_code envPlain).pc
        = envPlain.pc_start + (gen_intermediate_code envPlain).size) :=
  ⟨fun _ => rfl, by decide,
    build_size_decomposition envPlain (fun _ => rfl) (by decide)⟩

/- ## C7: order of the termination predicates -/

/-- C7: the loop's termination predicates are evaluated in the source's
order with the first match stopping the loop while `ctx.bstate` stays
`BS_NONE` (a cause certifies that all earlier-checked predicates are
false at the stop point), and the breakpoint check precedes them all:
a breakpoint at the entry `pc` stops the loop via the breakpoint path no
matter which other conditions hold. -/
theorem transLoop_stop_order (E : TransEnv)
    (maxI nextPage fuel pc numInsns : Nat) (ops : List TCGOp)
    (decoded : List Nat) (hfuel : 0 < fuel) :
    StopOrderSpec E maxI nextPage
        (transLoop E maxI nextPage fuel pc numInsns ops decoded) ∧
      (E.bkpt pc = true →
        (transLoop E maxI nextPage fuel pc numInsns ops decoded).cause
          = StopCause.breakpoint) := by
  refine ⟨transLoop_stop_order_aux E maxI nextPage fuel pc numInsns ops
    decoded, ?_⟩
  intro hbk
  obtain ⟨f, rfl⟩ : ∃ f, fuel = f + 1 := ⟨fuel - 1, by omega⟩
  simp [transLoop, hbk]

/-- Witness for `transLoop_stop_order` at `envPlain`, one unit of fuel. -/
theorem transLoop_stop_order_witness :
    0 < 1 ∧
    (StopOrderSpec envPlain 1 8192 (transLoop envPlain 1 8192 1 4096 0 [] [])
      ∧ (envPlain.bkpt 4096 = true →
          (transLoop envPlain 1 8192 1 4096 0 [] []).cause
            = StopCause.breakpoint)) :=
  ⟨Nat.one_pos, transLoop_stop_order envPlain 1 8192 1 4096 0 [] []
    Nat.one_pos⟩

/- ## C1: breakpoint at the block's start address -/

/-- A build with an active breakpoint at the block's start address
`0x1000`. -/
def envC1 : TransEnv :=
  { pc_start := 4096, cflags := 0, bkpt := fun a => a == 4096,
    ss_enabled := false, singlestep := false,
    bufFull := fun _ => false, mem := fun _ => 0 }

/-- C1 counterexample: with a breakpoint at `basePC = 0x1000`, the
synthesized debug exception targets `basePC` itself (the PC write emitted
immediately before `raise_exception_debug` carries `0x1000`), not
`basePC + 4`: the claimed conjunction is false even though zero
instructions are decoded. -/
theorem breakpoint_at_base_counterexample :
    (gen_intermediate_code envC1).decoded.length = 0 ∧
    debugTrapTarget (gen_intermediate_code envC1).ops = some 4096 ∧
    ¬ ((gen_intermediate_code envC1).decoded.length = 0 ∧
        debugTrapTarget (gen_intermediate_code envC1).ops
          = some (4096 + 4)) := by decide

/-- C1 (amended): a breakpoint active at `basePC` produces a block with
zero instructions decoded, whose IR is exactly the `insn_start` marker,
a PC write of `basePC` itself and the debug-trap raise (so the debug
exception targets `basePC`, not `basePC + 4`), with `ctx.pc` advanced to
`basePC + 4` purely for accounting: `tb->size = 4`, `tb->icount = 1`, and
the state is `BranchTaken`. -/
theorem breakpoint_at_base (E : TransEnv) (hbk : E.bkpt E.pc_start = true)
    (hwf : E.pc_start < 2 ^ 63) :
    (gen_intermediate_code E).decoded = [] ∧
    (gen_intermediate_code E).ops
      = [TCGOp.insn_start E.pc_start, TCGOp.movi_PC E.pc_start,
          TCGOp.raise_debug] ∧
    debugTrapTarget (gen_intermediate_code E).ops = some E.pc_start ∧
    (gen_intermediate_code E).pc = E.pc_start + 4 ∧
    (gen_intermediate_code E).size = 4 ∧
    (gen_intermediate_code E).icount = 1 ∧
    (gen_intermediate_code E).bstate = BState.bsBranch := by
  have e63 : (2 : Nat) ^ 63 = 9223372036854775808 := by norm_num
  have e64 : (2 : Nat) ^ 64 = 18446744073709551616 := by norm_num
  obtain ⟨m, hm⟩ : ∃ m, max_insns_of E.cflags = m + 1 :=
    ⟨max_insns_of E.cflags - 1, by have := max_insns_of_pos E.cflags; omega⟩
  have hps : E.pc_start % 2 ^ 64 = E.pc_start :=
    Nat.mod_eq_of_lt (by rw [e64]; rw [e63] at hwf; omega)
  have hpc4 : (E.pc_start + 4) % 2 ^ 64 = E.pc_start + 4 :=
    Nat.mod_eq_of_lt (by rw [e64]; rw [e63] at hwf; omega)
  simp only [gen_intermediate_code, hm, transLoop, hbk, if_true, hps, hpc4]
  repeat' apply And.intro
  all_goals
    first
    | trivial
    | (simp [debugTrapTarget]; done)
    | (rw [e63] at hwf; omega)

/-- Witness for `breakpoint_at_base` at `envC1`. -/
theorem breakpoint_at_base_witness :
    envC1.bkpt envC1.pc_start = true ∧ envC1.pc_start < 2 ^ 63 ∧
    ((gen_intermediate_code envC1).decoded = [] ∧
      (gen_intermediate_code envC1).ops
        = [TCGOp.insn_start envC1.pc_start, TCGOp.movi_PC envC1.pc_start,
            TCGOp.raise_debug] ∧
      debugTrapTarget (gen_intermediate_code envC1).ops
        = some envC1.pc_start ∧
      (gen_intermediate_code envC1).pc = envC1.pc_start + 4 ∧
      (gen_intermediate_code envC1).size = 4 ∧
      (gen_intermediate_code envC1).icount = 1 ∧
      (gen_intermediate_code envC1).bstate = BState.bsBranch) :=
  ⟨by decide, by decide, breakpoint_at_base envC1 (by decide) (by decide)⟩

/- ## C5: debug-mode exit logic -/

/-- C5: with per-CPU single-step active and a termination state other
than `BranchTaken`, the exit logic writes the current PC (exactly when
the state is the implicit `Open` timeout, `BS_NONE`) and then raises the
debug trap; in debug mode it never emits a chained exit, for any
termination state. -/
theorem exit_logic_debug_mode (E : TransEnv) (pc : Nat)
    (hss : E.ss_enabled = true) :
    exit_logic E BState.bsNone pc
        = [TCGOp.movi_PC pc, TCGOp.raise_debug] ∧
    exit_logic E BState.bsStop pc = [TCGOp.raise_debug] ∧
    (∀ (bs : BState) (p : Nat) (op : TCGOp),
        op ∈ exit_logic E bs p → op.isChained = false) := by
  refine ⟨by simp [exit_logic, hss], by simp [exit_logic, hss], ?_⟩
  intro bs p op hop
  cases bs <;> simp [exit_logic, hss] at hop <;>
    rcases hop with rfl | rfl <;> rfl

/-- A concrete environment with per-CPU single-step enabled. -/
def envSS : TransEnv :=
  { pc_start := 4096, cflags := 1, bkpt := fun _ => false,
    ss_enabled := true, singlestep := false,
    bufFull := fun _ => false, mem := fun _ => 0 }

/-- Witness for `exit_logic_debug_mode` at `envSS`. -/
theorem exit_logic_debug_mode_witness :
    envSS.ss_enabled = true ∧
    (exit_logic envSS BState.bsNone 4100
        = [TCGOp.movi_PC 4100, TCGOp.raise_debug] ∧
      exit_logic envSS BState.bsStop 4100 = [TCGOp.raise_debug] ∧
      (∀ (bs : BState) (p : Nat) (op : TCGOp),
          op ∈ exit_logic envSS bs p → op.isChained = false)) :=
  ⟨rfl, exit_logic_debug_mode envSS 4100 rfl⟩

/- ## C6: implicit-Open timeout exit, debug mode off -/

/-- C6: when the loop ends with the implicit `Open` timeout (`BS_NONE`)
and debug mode is off, the exit logic never emits a chained jump: it
writes `ctx.pc` and performs an unconditional exit to the dispatcher. -/
theorem exit_logic_open_timeout (E : TransEnv) (pc : Nat)
    (hss : E.ss_enabled = false) :
    exit_logic E BState.bsNone pc
        = [TCGOp.movi_PC pc, TCGOp.exit_tb_dispatch] ∧
    ∀ op ∈ exit_logic E BState.bsNone pc, op.isChained = false := by
  constructor
  · simp [exit_logic, hss]
  · intro op hop
    simp [exit_logic, hss] at hop
    rcases hop with rfl | rfl <;> rfl

/-- Witness for `exit_logic_open_timeout` at `envPlain`. -/
theorem exit_logic_open_timeout_witness :
    envPlain.ss_enabled = false ∧
    (exit_logic envPlain BState.bsNone 4100
        = [TCGOp.movi_PC 4100, TCGOp.exit_tb_dispatch] ∧
      ∀ op ∈ exit_logic envPlain BState.bsNone 4100,
        op.isChained = false) :=
  ⟨rfl, exit_logic_open_timeout envPlain 4100 rfl⟩
